import Mathlib

/-!
Verification development for the `aiconference` document-sectioning engine.

The definitions below are a shallow embedding of the Python sources:
  * `backend.py` — `roman_to_int`, `_parse_header_components`,
    `_is_valid_numbered_header`, `_get_mapped_title`, the assembler loop of
    `extract_sections_visual`, and the skip-filter head of
    `generate_section_review`;
  * `section_parser.py` — `is_level_1_header` and `parse_pdf_text`.

Python strings are modelled as Lean `String` (a wrapper around `List Char`);
Python's ASCII-relevant behaviour of `str.upper`, `str.strip`, `str.isdigit`,
`str.isupper` and `\s`, `\d`, `[A-Z]`, `\w` character classes is reproduced by
explicit character predicates (the sources only ever meet ASCII header text).
Python's insertion-ordered `dict` is modelled as an association list with
unique keys.  Regular expressions are compiled by hand into deterministic
recognizers; determinism of each translation is justified in its comment.
-/

/-- Python whitespace class `\s` / `str.strip` (ASCII part):
space, tab, newline, carriage return, vertical tab, form feed. -/
def isPySpace (c : Char) : Bool :=
  let n := c.toNat
  n == 32 || n == 9 || n == 10 || n == 13 || n == 11 || n == 12

/-- ASCII uppercase letter, the regex class `[A-Z]` and `str.isupper`
for the ASCII characters that occur in header lines. -/
def pyIsUpper (c : Char) : Bool :=
  decide (65 ≤ c.toNat) && decide (c.toNat ≤ 90)

/-- Python word-character class `\w` (ASCII part): letters, digits, underscore. -/
def pyIsWord (c : Char) : Bool :=
  c.isAlpha || c.isDigit || c == '_'

/-- `str.strip()` on a character list: drop leading and trailing whitespace. -/
def pyStripL (cs : List Char) : List Char :=
  (((cs.dropWhile isPySpace).reverse).dropWhile isPySpace).reverse

/-- `str.strip()` on a string. -/
def pyStrip (s : String) : String := ⟨pyStripL s.data⟩

/-- `str.upper()` (ASCII behaviour, as in the sources' header text). -/
def pyUpper (s : String) : String := ⟨s.data.map Char.toUpper⟩

/-- `needle` is a prefix of `hay` (list version). -/
def listStartsWith : List Char → List Char → Bool
  | _, [] => true
  | [], _ :: _ => false
  | a :: as, b :: bs => a == b && listStartsWith as bs

/-- `s.startswith(pre)` on strings. -/
def strStartsWith (s pre : String) : Bool :=
  listStartsWith s.data pre.data

/-- Python's substring test `needle in hay` on character lists. -/
def hasSub : List Char → List Char → Bool
  | [], needle => needle.isEmpty
  | h :: t, needle => listStartsWith (h :: t) needle || hasSub t needle

/-- `str.isdigit()` (ASCII digits): non-empty and all characters are digits. -/
def pyIsDigitStr (s : String) : Bool :=
  !s.data.isEmpty && s.data.all Char.isDigit

/-- `int(s)` for a decimal-digit string. -/
def digitsToNat (cs : List Char) : Nat :=
  cs.foldl (fun acc c => 10 * acc + (c.toNat - 48)) 0

/-! ## `backend.py` configuration tables -/

/-- `HEADER_MAP` from `backend.py`, as an ordered key/value list. -/
def HEADER_MAP : List (String × String) :=
  [("ABSTRACT", "ABSTRACT"), ("INTRODUCTION", "INTRODUCTION"),
   ("RELATED WORK", "RELATED WORK"), ("LITERATURE REVIEW", "RELATED WORK"),
   ("BACKGROUND", "RELATED WORK"), ("REFERENCES", "REFERENCES"),
   ("BIBLIOGRAPHY", "REFERENCES"), ("ACKNOWLEDGMENT", "ACKNOWLEDGMENT"),
   ("ACKNOWLEDGEMENTS", "ACKNOWLEDGMENT"), ("APPENDIX", "APPENDIX"),
   ("APPENDICES", "APPENDIX"), ("DECLARATION", "DECLARATION")]

/-- `SKIP_REVIEW_SECTIONS` from `backend.py`. -/
def SKIP_REVIEW_SECTIONS : List String :=
  ["ABSTRACT", "PREAMBLE", "PREAMBLE/INTRODUCTION", "REFERENCES",
   "BIBLIOGRAPHY", "ACKNOWLEDGMENT", "APPENDIX", "DECLARATION"]

/-- `IGNORE_CAPTION_KEYWORDS` from `backend.py`. -/
def IGNORE_CAPTION_KEYWORDS : List String :=
  ["FIGURE", "FIG", "FIG.", "TABLE", "TAB", "TAB.",
   "IMAGE", "IMG", "IMG.", "CHART", "GRAPH", "DIAGRAM", "EQ", "EQUATION"]

/-! ## `backend.py` helper functions -/

/-- Value of a single upper-case Roman character (`roman_map` in the source). -/
def romanVal (c : Char) : Option Int :=
  match c with
  | 'I' => some 1
  | 'V' => some 5
  | 'X' => some 10
  | 'L' => some 50
  | 'C' => some 100
  | 'D' => some 500
  | 'M' => some 1000
  | _ => none

/-- The `for char in reversed(s)` loop of `roman_to_int`: the list argument is
the reversed (hence rightmost-first) character sequence, `total` and `prev`
are the accumulator and the previously processed (right-neighbour) value. -/
def romanLoop : List Char → Int → Int → Option Int
  | [], total, _ => some total
  | c :: cs, total, prev =>
    match romanVal c with
    | none => none
    | some v => romanLoop cs (if v < prev then total - v else total + v) v

/-- `roman_to_int` from `backend.py` (the `try/except` cannot fire: the only
lookup is guarded by `if char not in roman_map`). -/
def roman_to_int (s : String) : Option Int :=
  romanLoop ((pyUpper s).data.reverse) 0 0

/-- The numeral branch of `_is_valid_numbered_header`: decimal digits are
converted with `int`, anything else goes through `roman_to_int`. -/
def resolveNumeral (numStr : String) : Option Int :=
  if pyIsDigitStr numStr then some ((digitsToNat numStr.data : Nat) : Int)
  else roman_to_int numStr

/-- `_parse_header_components`: the regex
`^([IVXLCDMivxlcdm]+|\d+)(\.?)\s+([A-Z].*)$` applied with `re.match`, returning
`(group(1), group(3).strip())` on a match.  The two alternatives of group 1
are decided by the first character (the classes are disjoint); each run is
maximal and backtracking cannot help because a shortened run leaves a class
character that `\.?` and `\s+` cannot consume. -/
def parseHeaderComponents (text : String) : Option (String × String) :=
  let cs := text.data
  let numRun : List Char :=
    match cs with
    | [] => []
    | c :: _ =>
      if (['I','V','X','L','C','D','M','i','v','x','l','c','d','m']).contains c then
        cs.takeWhile (fun d => (['I','V','X','L','C','D','M','i','v','x','l','c','d','m']).contains d)
      else if c.isDigit then cs.takeWhile Char.isDigit
      else []
  if numRun.isEmpty then none
  else
    let rest1 := cs.drop numRun.length
    let rest2 := match rest1 with
      | '.' :: r => r
      | r => r
    let ws := rest2.takeWhile isPySpace
    if ws.isEmpty then none
    else
      match rest2.drop ws.length with
      | [] => none
      | c :: r => if pyIsUpper c then some (⟨numRun⟩, pyStrip ⟨c :: r⟩) else none

/-- `_is_valid_numbered_header` from `backend.py`. -/
def isValidNumberedHeader (numStr phrase : String) (expectedNumber : Int) : Bool :=
  if phrase.length ≥ 30 then false
  else
    let cleanPhrase := pyStrip (pyUpper phrase)
    if IGNORE_CAPTION_KEYWORDS.any (fun k => strStartsWith cleanPhrase k) then false
    else
      match resolveNumeral numStr with
      | none => false
      | some v => v == expectedNumber

/-- `_get_mapped_title`: uppercase, strip, remove colons, exact table lookup. -/
def getMappedTitle (text : String) : Option String :=
  let cleanUpper : String := ⟨(pyStrip (pyUpper text)).data.filter (fun c => c ≠ ':')⟩
  HEADER_MAP.lookup cleanUpper

/-! ## `backend.py` assembler (`extract_sections_visual`) -/

/-- One output record of the assembler (a `{"title": ..., "content": ...}`
dictionary in the source). -/
structure DocSection where
  title : String
  content : String
deriving DecidableEq

/-- `if current_section["content"].strip(): sections.append(current_section)`. -/
def emitIf (cur : DocSection) : List DocSection :=
  if pyStrip cur.content == "" then [] else [cur]

/-- The single-line detection path: `_parse_header_components` followed by the
`_is_valid_numbered_header` test (lines 132-137 of `backend.py`). -/
def singleHeader (line : String) (expectedNumber : Int) : Option (String × String) :=
  match parseHeaderComponents line with
  | none => none
  | some (num, phr) =>
    if isValidNumberedHeader num phr expectedNumber then some (num, phr) else none

/-- The regex `^([IVXLCDMivxlcdm]+|\d+)(\.?)$` of the split-line path: the
whole line is a bare numeral token plus an optional trailing period. -/
def bareNumMatch (line : String) : Option String :=
  let cs := line.data
  let numRun : List Char :=
    match cs with
    | [] => []
    | c :: _ =>
      if (['I','V','X','L','C','D','M','i','v','x','l','c','d','m']).contains c then
        cs.takeWhile (fun d => (['I','V','X','L','C','D','M','i','v','x','l','c','d','m']).contains d)
      else if c.isDigit then cs.takeWhile Char.isDigit
      else []
  if numRun.isEmpty then none
  else
    match cs.drop numRun.length with
    | [] => some ⟨numRun⟩
    | ['.'] => some ⟨numRun⟩
    | _ => none

/-- The split-line detection path (lines 138-149 of `backend.py`): current
line is a bare numeral, `next_line = all_lines[i+1].strip()` must be shorter
than 30 characters, non-empty, start with an uppercase letter, and pass
`_is_valid_numbered_header`. -/
def splitHeader (line next : String) (expectedNumber : Int) : Option (String × String) :=
  match bareNumMatch line with
  | none => none
  | some num =>
    let nl := pyStrip next
    let headOk := match nl.data with
      | [] => false
      | c :: _ => pyIsUpper c
    if decide (nl.length < 30) && !(nl == "") && headOk
        && isValidNumberedHeader num nl expectedNumber then
      some (num, nl)
    else none

/-- Result of the per-line header detection of `extract_sections_visual`
(the `detected_header` / `is_numbered` / `i += 1` flags of the source):
`title` is the new section title, `isNumbered` records whether
`expected_number` must be bumped, `takesNext` whether the lookahead line was
consumed (split-line case, in which the source advances `i` once more). -/
structure HeaderHit where
  title : String
  isNumbered : Bool
  takesNext : Bool

/-- The detection cascade of one iteration of `extract_sections_visual`
(lines 128-156 of `backend.py`), in source order: single-line numbered
header, then — only when a lookahead line exists — the split-line numbered
header, then the mapped unnumbered title; `none` means the line is ordinary
content. -/
def detectHeader (line : String) (rest : List String) (expectedNumber : Int) :
    Option HeaderHit :=
  match singleHeader line expectedNumber with
  | some (num, phr) => some ⟨num ++ ". " ++ phr, true, false⟩
  | none =>
    match rest with
    | [] =>
      match getMappedTitle line with
      | some t => some ⟨t, false, false⟩
      | none => none
    | next :: _ =>
      match splitHeader line next expectedNumber with
      | some (num, phr) => some ⟨num ++ ". " ++ phr, true, true⟩
      | none =>
        match getMappedTitle line with
        | some t => some ⟨t, false, false⟩
        | none => none

/-- The `while i < len(all_lines)` loop of `extract_sections_visual`: on a
detected header the current section is flushed (if its content is non-blank)
and a fresh section is opened, bumping `expected_number` only for numbered
headers and skipping the lookahead line in the split-line case; otherwise
the line is appended to the current content.  The `fuel` argument only makes
the recursion structural: every iteration consumes at least one line, so any
fuel `≥ lines.length` gives the same result (`extractLoopAux_fuel` below),
and the wrapper `extractLoop` always supplies enough. -/
def extractLoopAux : Nat → List String → DocSection → Int → List DocSection
  | _, [], cur, _ => emitIf cur
  | 0, _ :: _, cur, _ => emitIf cur
  | fuel + 1, line :: rest, cur, expectedNumber =>
    match detectHeader line rest expectedNumber with
    | some hit =>
      emitIf cur ++
        extractLoopAux fuel (if hit.takesNext then rest.tail else rest) ⟨hit.title, ""⟩
          (if hit.isNumbered then expectedNumber + 1 else expectedNumber)
    | none =>
      extractLoopAux fuel rest ⟨cur.title, cur.content ++ line ++ " "⟩ expectedNumber

/-- The assembler loop of `extract_sections_visual` on a line list. -/
def extractLoop (lines : List String) (cur : DocSection) (expectedNumber : Int) :
    List DocSection :=
  extractLoopAux lines.length lines cur expectedNumber

/-- The assembler on an already-cleaned line list, seeded with the synthetic
Preamble section and `expected_number = 1`. -/
def extractSectionsLines (lines : List String) : List DocSection :=
  extractLoop lines ⟨"Preamble/Introduction", ""⟩ 1

/-- The per-line cleaning of `extract_sections_visual`
(`clean = line.strip(); if clean: all_lines.append(clean)`). -/
def preprocessLines (rawLines : List String) : List String :=
  (rawLines.map pyStrip).filter (fun l => !(l == ""))

/-- `extract_sections_visual` with the fallible PDF-text extraction modelled
as an `Except` input: the function's whole body runs under `try`, and the
`except` handler returns the single error record. -/
def extract_sections_visual (input : Except String (List String)) : List DocSection :=
  match input with
  | .error e => [⟨"Error Reading PDF", "Could not extract text: " ++ e⟩]
  | .ok rawLines => extractSectionsLines (preprocessLines rawLines)

/-! ## `backend.py` review-skip filter -/

/-- The `re.sub(r"^[\d\w]+\.\s*", "", clean_name)` step of
`generate_section_review`: if the string starts with a non-empty run of word
characters followed immediately by a period, remove the run, the period and
any following whitespace; otherwise leave the string unchanged.  (`[\d\w]`
equals `\w`; the run is the maximal word-character prefix since `.` is not a
word character.) -/
def stripWordDotHead (s : String) : String :=
  let cs := s.data
  let run := cs.takeWhile pyIsWord
  if run.isEmpty then s
  else
    match cs.drop run.length with
    | '.' :: r => ⟨r.dropWhile isPySpace⟩
    | _ => s

/-- The skip decision at the head of `generate_section_review`: `true` exactly
when the function returns `None` (no review) for this section name. -/
def generateSectionReviewSkips (sectionName : String) : Bool :=
  let cleanName := stripWordDotHead (pyStrip (pyUpper sectionName))
  SKIP_REVIEW_SECTIONS.contains cleanName
    || SKIP_REVIEW_SECTIONS.contains (pyUpper sectionName)

/-! ## `section_parser.py` -/

/-- The regex `^\d+\.\s+.*` of `is_level_1_header`: digits, a period, at
least one whitespace character (the digit run is maximal; `.` is not a
digit, so no backtracking is possible). -/
def arabicHeaderMatch (cs : List Char) : Bool :=
  let run := cs.takeWhile Char.isDigit
  if run.isEmpty then false
  else
    match cs.drop run.length with
    | '.' :: w :: _ => isPySpace w
    | _ => false

/-- Consume a run of at most three copies of `target`; a longer run makes the
whole Roman pattern fail, since the leftover copy cannot be consumed by any
later group or by the literal period. -/
def dropRunMax3 (target : Char) (cs : List Char) : Option (List Char) :=
  let run := cs.takeWhile (fun c => c == target)
  if run.length > 3 then none else some (cs.drop run.length)

/-- The group `(C[MD]|D?C{0,3})`.  Taking the two-character alternative when
it applies is safe: the alternative parse leaves an `M`/`D` that no later
group can consume. -/
def romanHundreds (cs : List Char) : Option (List Char) :=
  match cs with
  | 'C' :: 'M' :: r => some r
  | 'C' :: 'D' :: r => some r
  | _ =>
    let r1 := match cs with
      | 'D' :: r => r
      | r => r
    dropRunMax3 'C' r1

/-- The group `(X[CL]|L?X{0,3})`. -/
def romanTens (cs : List Char) : Option (List Char) :=
  match cs with
  | 'X' :: 'C' :: r => some r
  | 'X' :: 'L' :: r => some r
  | _ =>
    let r1 := match cs with
      | 'L' :: r => r
      | r => r
    dropRunMax3 'X' r1

/-- The group `(I[XV]|V?I{0,3})`. -/
def romanUnits (cs : List Char) : Option (List Char) :=
  match cs with
  | 'I' :: 'X' :: r => some r
  | 'I' :: 'V' :: r => some r
  | _ =>
    let r1 := match cs with
      | 'V' :: r => r
      | r => r
    dropRunMax3 'I' r1

/-- The regex `^(?=[MDCLXVI])M*(C[MD]|D?C{0,3})(X[CL]|L?X{0,3})(I[XV]|V?I{0,3})\.\s+.*`
of `is_level_1_header` (uppercase only, as in the source). -/
def romanHeaderMatch (cs : List Char) : Bool :=
  match cs with
  | [] => false
  | c :: _ =>
    if (['M','D','C','L','X','V','I']).contains c then
      let r0 := cs.dropWhile (fun d => d == 'M')
      match romanHundreds r0 with
      | none => false
      | some r1 =>
        match romanTens r1 with
        | none => false
        | some r2 =>
          match romanUnits r2 with
          | none => false
          | some r3 =>
            match r3 with
            | '.' :: w :: _ => isPySpace w
            | _ => false
    else false

/-- `is_level_1_header` from `section_parser.py`. -/
def is_level_1_header (line : String) : Bool :=
  let cleanLine := pyStrip line
  if cleanLine.length > 120 then false
  else arabicHeaderMatch cleanLine.data || romanHeaderMatch cleanLine.data

/-- `STOP_KEYWORDS` from `parse_pdf_text`. -/
def STOP_KEYWORDS : List String :=
  ["REFERENCES", "BIBLIOGRAPHY", "APPENDIX", "APPENDICES",
   "ACKNOWLEDGEMENT", "ACKNOWLEDGEMENTS"]

/-- The exclusion test of `parse_pdf_text`: uppercase the (already stripped)
line, delete periods, and stop when some keyword occurs in it while the line
is within 10 characters of the keyword's length. -/
def isExcludedLine (cleanLine : String) : Bool :=
  let upperLine := (pyUpper cleanLine).data.filter (fun c => c ≠ '.')
  STOP_KEYWORDS.any
    (fun kw => hasSub upperLine kw.data && decide (upperLine.length < kw.length + 10))

/-- Python-dict assignment `d[k] = v`: replace in place when the key exists
(keeping its position), otherwise append the new entry. -/
def dictSet (d : List (String × List String)) (k : String) (v : List String) :
    List (String × List String) :=
  if d.any (fun p => p.1 == k) then
    d.map (fun p => if p.1 == k then (k, v) else p)
  else d ++ [(k, v)]

/-- `d[k].append(x)` for the current-section key (always present: it was
inserted either at initialization or when the header was detected). -/
def dictAppendTo (d : List (String × List String)) (k : String) (x : String) :
    List (String × List String) :=
  d.map (fun p => if p.1 == k then (p.1, p.2 ++ [x]) else p)

/-- The `for line in text_lines` loop of `parse_pdf_text`: skip blank lines,
break at a stop keyword, open a section on a level-1 header, else accumulate
content under the current title. -/
def parseLines : List String → List (String × List String) → String →
    List (String × List String)
  | [], secs, _ => secs
  | l :: rest, secs, cur =>
    let cleanLine := pyStrip l
    if cleanLine == "" then parseLines rest secs cur
    else if isExcludedLine cleanLine then secs
    else if is_level_1_header cleanLine then
      parseLines rest (dictSet secs cleanLine []) cleanLine
    else parseLines rest (dictAppendTo secs cur cleanLine) cur

/-- `"\n".join(v)`. -/
def joinNL : List String → String
  | [] => ""
  | [x] => x
  | x :: xs => x ++ "\n" ++ joinNL xs

/-- `parse_pdf_text` from `section_parser.py`: run the loop from the seeded
`PREAMBLE` entry, then keep only non-empty sections, joining their lines. -/
def parse_pdf_text (textLines : List String) : List (String × String) :=
  ((parseLines textLines [("PREAMBLE", [])] "PREAMBLE").filter
      (fun p => !p.2.isEmpty)).map
    (fun p => (p.1, joinNL p.2))

/-! ## Generic string/list helper lemmas -/

theorem strData_append (a b : String) : (a ++ b).data = a.data ++ b.data := by
  cases a; cases b; rfl

theorem strAppend_empty (s : String) : s ++ "" = s := by
  apply String.ext
  rw [strData_append]
  exact List.append_nil _

theorem strAppend_assoc (a b c : String) : a ++ b ++ c = a ++ (b ++ c) := by
  apply String.ext
  simp [strData_append]

theorem listStartsWith_append (pre x : List Char) :
    listStartsWith (pre ++ x) pre = true := by
  induction pre with
  | nil =>
    cases x <;> rfl
  | cons a as ih =>
    simp [listStartsWith, ih]

/-! ## Unfolding equations for the two scan loops -/

theorem parseLines_cons (l : String) (rest : List String)
    (secs : List (String × List String)) (cur : String) :
    parseLines (l :: rest) secs cur =
      (if pyStrip l == "" then parseLines rest secs cur
       else if isExcludedLine (pyStrip l) then secs
       else if is_level_1_header (pyStrip l) then
         parseLines rest (dictSet secs (pyStrip l) []) (pyStrip l)
       else parseLines rest (dictAppendTo secs cur (pyStrip l)) cur) := rfl

theorem extractLoopAux_cons (fuel : Nat) (line : String) (rest : List String)
    (cur : DocSection) (exp : Int) :
    extractLoopAux (fuel + 1) (line :: rest) cur exp =
      (match detectHeader line rest exp with
       | some hit =>
         emitIf cur ++
           extractLoopAux fuel (if hit.takesNext then rest.tail else rest) ⟨hit.title, ""⟩
             (if hit.isNumbered then exp + 1 else exp)
       | none =>
         extractLoopAux fuel rest ⟨cur.title, cur.content ++ line ++ " "⟩ exp) := rfl

/-- The fuel of `extractLoopAux` is inert: any fuel at least the number of
remaining lines computes the assembler loop. -/
theorem extractLoopAux_fuel (fuel : Nat) :
    ∀ (lines : List String) (cur : DocSection) (exp : Int),
      lines.length ≤ fuel →
      extractLoopAux fuel lines cur exp = extractLoop lines cur exp := by
  induction fuel using Nat.strong_induction_on with
  | _ fuel ih =>
    intro lines cur exp h
    cases lines with
    | nil => cases fuel <;> rfl
    | cons line rest =>
      simp only [List.length_cons] at h
      obtain ⟨f, rfl⟩ : ∃ f, fuel = f + 1 := ⟨fuel - 1, by omega⟩
      cases hd : detectHeader line rest exp with
      | none =>
        have e1 : extractLoopAux (f + 1) (line :: rest) cur exp
            = extractLoopAux f rest ⟨cur.title, cur.content ++ line ++ " "⟩ exp := by
          rw [extractLoopAux_cons, hd]
        have e2 : extractLoop (line :: rest) cur exp
            = extractLoopAux rest.length rest ⟨cur.title, cur.content ++ line ++ " "⟩ exp := by
          show extractLoopAux (rest.length + 1) (line :: rest) cur exp = _
          rw [extractLoopAux_cons, hd]
        rw [e1, e2, ih f (by omega) rest _ _ (by omega),
          ih rest.length (by omega) rest _ _ (by omega)]
      | some hit =>
        have hlen : (if hit.takesNext then rest.tail else rest).length ≤ rest.length := by
          split
          · cases rest <;> simp
          · exact Nat.le_refl _
        have e1 : extractLoopAux (f + 1) (line :: rest) cur exp
            = emitIf cur ++
                extractLoopAux f (if hit.takesNext then rest.tail else rest)
                  ⟨hit.title, ""⟩ (if hit.isNumbered then exp + 1 else exp) := by
          rw [extractLoopAux_cons, hd]
        have e2 : extractLoop (line :: rest) cur exp
            = emitIf cur ++
                extractLoopAux rest.length (if hit.takesNext then rest.tail else rest)
                  ⟨hit.title, ""⟩ (if hit.isNumbered then exp + 1 else exp) := by
          show extractLoopAux (rest.length + 1) (line :: rest) cur exp = _
          rw [extractLoopAux_cons, hd]
        rw [e1, e2, ih f (by omega) _ _ _ (by omega),
          ih rest.length (by omega) _ _ _ hlen]

theorem detectHeader_single (line : String) (rest : List String) (exp : Int)
    (num phr : String) (h : singleHeader line exp = some (num, phr)) :
    detectHeader line rest exp = some ⟨num ++ ". " ++ phr, true, false⟩ := by
  simp [detectHeader, h]

theorem detectHeader_split (line next : String) (rest2 : List String) (exp : Int)
    (num phr : String)
    (h1 : singleHeader line exp = none)
    (h2 : splitHeader line next exp = some (num, phr)) :
    detectHeader line (next :: rest2) exp = some ⟨num ++ ". " ++ phr, true, true⟩ := by
  simp [detectHeader, h1, h2]

theorem detectHeader_mapped (line : String) (rest : List String) (exp : Int)
    (t : String)
    (h1 : singleHeader line exp = none)
    (h2 : ∀ next rest2, rest = next :: rest2 → splitHeader line next exp = none)
    (h3 : getMappedTitle line = some t) :
    detectHeader line rest exp = some ⟨t, false, false⟩ := by
  cases rest with
  | nil => simp [detectHeader, h1, h3]
  | cons next rest2 => simp [detectHeader, h1, h2 next rest2 rfl, h3]

theorem detectHeader_none (line : String) (rest : List String) (exp : Int)
    (h1 : singleHeader line exp = none)
    (h2 : ∀ next rest2, rest = next :: rest2 → splitHeader line next exp = none)
    (h3 : getMappedTitle line = none) :
    detectHeader line rest exp = none := by
  cases rest with
  | nil => simp [detectHeader, h1, h3]
  | cons next rest2 => simp [detectHeader, h1, h2 next rest2 rfl, h3]

/-- Step lemma: an accepted single-line numbered header closes the current
section, opens `"{num}. {phrase}"`, and bumps the counter by exactly 1. -/
theorem extractLoop_single_step (line : String) (rest : List String)
    (cur : DocSection) (exp : Int) (num phr : String)
    (h : singleHeader line exp = some (num, phr)) :
    extractLoop (line :: rest) cur exp
      = emitIf cur ++ extractLoop rest ⟨num ++ ". " ++ phr, ""⟩ (exp + 1) := by
  show extractLoopAux (rest.length + 1) (line :: rest) cur exp = _
  rw [extractLoopAux_cons, detectHeader_single line rest exp num phr h]
  rfl

/-- Step lemma: an accepted split-line numbered header consumes two lines,
opens `"{num}. {phrase}"`, and bumps the counter by exactly 1. -/
theorem extractLoop_split_step (line next : String) (rest2 : List String)
    (cur : DocSection) (exp : Int) (num phr : String)
    (h1 : singleHeader line exp = none)
    (h2 : splitHeader line next exp = some (num, phr)) :
    extractLoop (line :: next :: rest2) cur exp
      = emitIf cur ++ extractLoop rest2 ⟨num ++ ". " ++ phr, ""⟩ (exp + 1) := by
  show extractLoopAux (rest2.length + 1 + 1) (line :: next :: rest2) cur exp = _
  rw [extractLoopAux_cons, detectHeader_split line next rest2 exp num phr h1 h2]
  show emitIf cur ++ extractLoopAux (rest2.length + 1) rest2 ⟨num ++ ". " ++ phr, ""⟩ (exp + 1) = _
  rw [extractLoopAux_fuel (rest2.length + 1) rest2 _ _ (by omega)]

/-- Step lemma: a mapped (unnumbered) header opens its canonical title and
leaves the counter unchanged. -/
theorem extractLoop_mapped_step (line : String) (rest : List String)
    (cur : DocSection) (exp : Int) (t : String)
    (h1 : singleHeader line exp = none)
    (h2 : ∀ next rest2, rest = next :: rest2 → splitHeader line next exp = none)
    (h3 : getMappedTitle line = some t) :
    extractLoop (line :: rest) cur exp
      = emitIf cur ++ extractLoop rest ⟨t, ""⟩ exp := by
  show extractLoopAux (rest.length + 1) (line :: rest) cur exp = _
  rw [extractLoopAux_cons, detectHeader_mapped line rest exp t h1 h2 h3]
  rfl

/-- Step lemma: an ordinary content line is appended (with a trailing space)
to the current section and the counter is unchanged. -/
theorem extractLoop_content_step (line : String) (rest : List String)
    (cur : DocSection) (exp : Int)
    (h1 : singleHeader line exp = none)
    (h2 : ∀ next rest2, rest = next :: rest2 → splitHeader line next exp = none)
    (h3 : getMappedTitle line = none) :
    extractLoop (line :: rest) cur exp
      = extractLoop rest ⟨cur.title, cur.content ++ line ++ " "⟩ exp := by
  show extractLoopAux (rest.length + 1) (line :: rest) cur exp = _
  rw [extractLoopAux_cons, detectHeader_none line rest exp h1 h2 h3]
  rfl

/-! ## Helper lemmas about the individual checks -/

/-- A header candidate accepted by `_is_valid_numbered_header` resolves
exactly to the expected number. -/
theorem isValidNumberedHeader_resolve {num phr : String} {exp : Int}
    (h : isValidNumberedHeader num phr exp = true) : resolveNumeral num = some exp := by
  simp only [isValidNumberedHeader] at h
  split at h
  · exact absurd h (by simp)
  · split at h
    · exact absurd h (by simp)
    · split at h
      next heq => exact absurd h (by simp)
      next v heq => rw [heq]; simpa using h

/-- For a candidate passing the length and caption checks, acceptance is
equivalent to the resolved numeral matching the expected number. -/
theorem isValidNumberedHeader_iff {num phr : String} {exp : Int}
    (hlen : phr.length < 30)
    (hcap : IGNORE_CAPTION_KEYWORDS.any
      (fun k => strStartsWith (pyStrip (pyUpper phr)) k) = false) :
    isValidNumberedHeader num phr exp = true ↔ resolveNumeral num = some exp := by
  simp only [isValidNumberedHeader, if_neg (show ¬phr.length ≥ 30 by omega), hcap]
  cases hr : resolveNumeral num with
  | none => simp
  | some v => simp [beq_iff_eq]

/-- Once `parse_pdf_text` reaches a non-blank stop-boundary line, the rest of
the input is ignored: the loop returns the sections accumulated so far. -/
theorem parseLines_stop (stopLine : String) (ys : List String)
    (hne : pyStrip stopLine ≠ "") (hex : isExcludedLine (pyStrip stopLine) = true) :
    ∀ (xs : List String) (secs : List (String × List String)) (cur : String),
      parseLines (xs ++ stopLine :: ys) secs cur = parseLines xs secs cur := by
  intro xs
  induction xs with
  | nil =>
    intro secs cur
    rw [List.nil_append, parseLines_cons, if_neg (by simpa using hne), if_pos hex]
    rfl
  | cons l xs ih =>
    intro secs cur
    rw [List.cons_append, parseLines_cons, parseLines_cons]
    by_cases hb : (pyStrip l == "") = true
    · rw [if_pos hb, if_pos hb, ih]
    · rw [if_neg hb, if_neg hb]
      by_cases hx : isExcludedLine (pyStrip l) = true
      · rw [if_pos hx, if_pos hx]
      · rw [if_neg hx, if_neg hx]
        by_cases hh : is_level_1_header (pyStrip l) = true
        · rw [if_pos hh, if_pos hh, ih]
        · rw [if_neg hh, if_neg hh, ih]

/-! ## Claims -/

/-- C1: in `parse_pdf_text`, the instant a line is classified as a
stop-boundary (non-blank, and after uppercasing and removing periods it
contains one of the stop keywords while being within 10 characters of the
keyword's length), the scan terminates: the output on `xs ++ stop :: ys`
equals the output on `xs` alone, so nothing at or after the stop line —
including later legitimate-looking headers — appears in the returned section
list.  On `["2. Results", "Our method achieves 95%.", "REFERENCES",
"[1] Smith et al."]` the output is exactly one section titled `"2. Results"`
with content `"Our method achieves 95%."`, the empty `PREAMBLE` entry being
dropped. -/
theorem c1_stop_boundary :
    (∀ (xs ys : List String) (stopLine : String),
       pyStrip stopLine ≠ "" → isExcludedLine (pyStrip stopLine) = true →
       parse_pdf_text (xs ++ stopLine :: ys) = parse_pdf_text xs)
    ∧ parse_pdf_text ["2. Results", "Our method achieves 95%.", "REFERENCES",
        "[1] Smith et al."]
      = [("2. Results", "Our method achieves 95%.")] := by
  constructor
  · intro xs ys stopLine h1 h2
    unfold parse_pdf_text
    rw [parseLines_stop stopLine ys h1 h2 xs]
  · decide

/-- Witness for C1 at a concrete stop line. -/
theorem c1_stop_boundary_witness :
    pyStrip "REFERENCES" ≠ "" ∧ isExcludedLine (pyStrip "REFERENCES") = true ∧
    parse_pdf_text (["1. Intro", "some body"] ++ "REFERENCES" :: ["[1] Smith", "2. Fake"])
      = parse_pdf_text ["1. Intro", "some body"] :=
  ⟨by decide, by decide,
   c1_stop_boundary.1 ["1. Intro", "some body"] ["[1] Smith", "2. Fake"] "REFERENCES"
     (by decide) (by decide)⟩

/-- C2: the assembler seeds its expected-number counter at 1; a candidate
numbered header is accepted iff (under the length and caption-exclusion
checks) its resolved numeral equals the current expected number; the counter
is incremented by exactly 1 on each accepted numbered header (single-line and
split-line) and is left unchanged by mapped headers and by ordinary content
lines.  Consequently a well-formed header whose numeral skips ahead (4 when 3
is expected) is rejected and absorbed into the current section's content. -/
theorem c2_expected_number_invariant :
    (∀ lines, extractSectionsLines lines = extractLoop lines ⟨"Preamble/Introduction", ""⟩ 1)
    ∧ (∀ num phr exp, isValidNumberedHeader num phr exp = true →
        resolveNumeral num = some exp)
    ∧ (∀ num phr exp, phr.length < 30 →
        IGNORE_CAPTION_KEYWORDS.any
          (fun k => strStartsWith (pyStrip (pyUpper phr)) k) = false →
        (isValidNumberedHeader num phr exp = true ↔ resolveNumeral num = some exp))
    ∧ (∀ line rest cur exp num phr, singleHeader line exp = some (num, phr) →
        extractLoop (line :: rest) cur exp
          = emitIf cur ++ extractLoop rest ⟨num ++ ". " ++ phr, ""⟩ (exp + 1))
    ∧ (∀ line next rest2 cur exp num phr, singleHeader line exp = none →
        splitHeader line next exp = some (num, phr) →
        extractLoop (line :: next :: rest2) cur exp
          = emitIf cur ++ extractLoop rest2 ⟨num ++ ". " ++ phr, ""⟩ (exp + 1))
    ∧ (∀ line rest cur exp t, singleHeader line exp = none →
        (∀ next rest2, rest = next :: rest2 → splitHeader line next exp = none) →
        getMappedTitle line = some t →
        extractLoop (line :: rest) cur exp = emitIf cur ++ extractLoop rest ⟨t, ""⟩ exp)
    ∧ (∀ line rest cur exp, singleHeader line exp = none →
        (∀ next rest2, rest = next :: rest2 → splitHeader line next exp = none) →
        getMappedTitle line = none →
        extractLoop (line :: rest) cur exp
          = extractLoop rest ⟨cur.title, cur.content ++ line ++ " "⟩ exp)
    ∧ isValidNumberedHeader "4" "Evaluation" 3 = false
    ∧ extractLoop ["4. Evaluation"] ⟨"Preamble/Introduction", "intro "⟩ 3
        = [⟨"Preamble/Introduction", "intro 4. Evaluation "⟩] := by
  refine ⟨fun lines => rfl,
    fun num phr exp h => isValidNumberedHeader_resolve h,
    fun num phr exp hlen hcap => isValidNumberedHeader_iff hlen hcap,
    fun line rest cur exp num phr h => extractLoop_single_step line rest cur exp num phr h,
    fun line next rest2 cur exp num phr h1 h2 =>
      extractLoop_split_step line next rest2 cur exp num phr h1 h2,
    fun line rest cur exp t h1 h2 h3 => extractLoop_mapped_step line rest cur exp t h1 h2 h3,
    fun line rest cur exp h1 h2 h3 => extractLoop_content_step line rest cur exp h1 h2 h3,
    by decide, by decide⟩

/-- Witness for C2: one concrete instance of each detection path. -/
theorem c2_expected_number_invariant_witness :
    resolveNumeral "2" = some 2
    ∧ extractLoop ["1. Intro", "body"] ⟨"Preamble/Introduction", "pre "⟩ 1
        = emitIf ⟨"Preamble/Introduction", "pre "⟩ ++ extractLoop ["body"] ⟨"1. Intro", ""⟩ 2
    ∧ extractLoop ["2", "Methods", "body"] ⟨"Preamble/Introduction", "pre "⟩ 2
        = emitIf ⟨"Preamble/Introduction", "pre "⟩ ++ extractLoop ["body"] ⟨"2. Methods", ""⟩ 3
    ∧ extractLoop ["ABSTRACT", "body"] ⟨"Preamble/Introduction", "pre "⟩ 5
        = emitIf ⟨"Preamble/Introduction", "pre "⟩ ++ extractLoop ["body"] ⟨"ABSTRACT", ""⟩ 5
    ∧ extractLoop ["plain text", "body"] ⟨"Preamble/Introduction", "pre "⟩ 5
        = extractLoop ["body"] ⟨"Preamble/Introduction", "pre plain text "⟩ 5 := by
  refine ⟨?_, ?_, ?_, ?_, ?_⟩
  · exact c2_expected_number_invariant.2.1 "2" "Methods" 2 (by decide)
  · exact c2_expected_number_invariant.2.2.2.1 "1. Intro" ["body"]
      ⟨"Preamble/Introduction", "pre "⟩ 1 "1" "Intro" (by decide)
  · exact c2_expected_number_invariant.2.2.2.2.1 "2" "Methods" ["body"]
      ⟨"Preamble/Introduction", "pre "⟩ 2 "2" "Methods" (by decide) (by decide)
  · exact c2_expected_number_invariant.2.2.2.2.2.1 "ABSTRACT" ["body"]
      ⟨"Preamble/Introduction", "pre "⟩ 5 "ABSTRACT" (by decide)
      (by intro next rest2 hE; cases hE; decide) (by decide)
  · exact c2_expected_number_invariant.2.2.2.2.2.2.1 "plain text" ["body"]
      ⟨"Preamble/Introduction", "pre "⟩ 5 (by decide)
      (by intro next rest2 hE; cases hE; decide) (by decide)

/-- C3: when the current line is exactly a bare numeral token with an
optional trailing period, and the (stripped) next line is non-empty, shorter
than the 30-character bound, starts with an uppercase letter, and passes the
caption-exclusion and sequence-equality checks of
`_is_valid_numbered_header`, the assembler consumes both lines as one header
and opens a section titled `"{numeral}. {phrase}"`.  On
`["4", "Evaluation", "We ran experiments..."]` with expected number 4 the
output is one section titled `"4. Evaluation"` whose content begins with
`"We ran experiments..."`, and neither `"4"` nor `"Evaluation"` occurs in any
section's content. -/
theorem c3_split_line_header :
    (∀ line next rest2 cur exp num,
       singleHeader line exp = none →
       bareNumMatch line = some num →
       (pyStrip next).length < 30 →
       pyStrip next ≠ "" →
       pyIsUpper ((pyStrip next).data.headD 'a') = true →
       isValidNumberedHeader num (pyStrip next) exp = true →
       extractLoop (line :: next :: rest2) cur exp
         = emitIf cur ++ extractLoop rest2 ⟨num ++ ". " ++ pyStrip next, ""⟩ (exp + 1))
    ∧ extractLoop ["4", "Evaluation", "We ran experiments..."]
        ⟨"Preamble/Introduction", ""⟩ 4
      = [⟨"4. Evaluation", "We ran experiments... "⟩]
    ∧ strStartsWith "We ran experiments... " "We ran experiments..." = true
    ∧ hasSub "We ran experiments... ".data "4".data = false
    ∧ hasSub "We ran experiments... ".data "Evaluation".data = false := by
  refine ⟨?_, by decide, by decide, by decide, by decide⟩
  intro line next rest2 cur exp num h1 hb hlen hne hup hv
  have hsplit : splitHeader line next exp = some (num, pyStrip next) := by
    unfold splitHeader
    rw [hb]
    cases hd : (pyStrip next).data with
    | nil => exact absurd (String.ext hd) hne
    | cons c cs =>
      have hup' : pyIsUpper c = true := by
        have hh : (pyStrip next).data.headD 'a' = c := by rw [hd]; rfl
        rwa [hh] at hup
      simp [hd, hup', hv, hlen, hne]
  exact extractLoop_split_step line next rest2 cur exp num (pyStrip next) h1 hsplit

/-- Witness for C3 at a concrete split-line pair. -/
theorem c3_split_line_header_witness :
    extractLoop ["4", "Evaluation", "later body"] ⟨"Preamble/Introduction", "pre "⟩ 4
      = emitIf ⟨"Preamble/Introduction", "pre "⟩ ++
          extractLoop ["later body"] ⟨"4" ++ ". " ++ pyStrip "Evaluation", ""⟩ (4 + 1) :=
  c3_split_line_header.1 "4" "Evaluation" ["later body"]
    ⟨"Preamble/Introduction", "pre "⟩ 4 "4" (by decide) (by decide) (by decide)
    (by decide) (by decide) (by decide)

/-- C5: a header candidate whose title phrase has length at least 30 is never
accepted by `_is_valid_numbered_header`, so its line never opens a section
and is folded into the current section's content.  The concrete line
`"3. A Very Long Title That Exceeds Thirty Characters Definitely"` parses as
a candidate with a 59-character phrase and, with expected number 3, does not
open a new section. -/
theorem c5_length_bound :
    (∀ num phr exp, phr.length ≥ 30 → isValidNumberedHeader num phr exp = false)
    ∧ parseHeaderComponents "3. A Very Long Title That Exceeds Thirty Characters Definitely"
        = some ("3", "A Very Long Title That Exceeds Thirty Characters Definitely")
    ∧ ("A Very Long Title That Exceeds Thirty Characters Definitely" : String).length ≥ 30
    ∧ extractLoop ["3. A Very Long Title That Exceeds Thirty Characters Definitely"]
        ⟨"Preamble/Introduction", "intro "⟩ 3
      = [⟨"Preamble/Introduction",
          "intro 3. A Very Long Title That Exceeds Thirty Characters Definitely "⟩] := by
  refine ⟨?_, by decide, by decide, by decide⟩
  intro num phr exp h
  unfold isValidNumberedHeader
  rw [if_pos h]

/-- Witness for C5 at the concrete over-long candidate. -/
theorem c5_length_bound_witness :
    isValidNumberedHeader "3"
      "A Very Long Title That Exceeds Thirty Characters Definitely" 3 = false :=
  c5_length_bound.1 "3" "A Very Long Title That Exceeds Thirty Characters Definitely" 3
    (by decide)

/-- C6: a numbered header candidate whose (uppercased, stripped) phrase
begins with one of the caption keywords is never accepted by
`_is_valid_numbered_header`, even when its numeral equals the expected
number; the concrete line `"2. Figure 3 shows the architecture"` with
expected number 2 does not open a new section and is treated as content. -/
theorem c6_caption_exclusion :
    (∀ num phr exp,
       IGNORE_CAPTION_KEYWORDS.any
         (fun k => strStartsWith (pyStrip (pyUpper phr)) k) = true →
       isValidNumberedHeader num phr exp = false)
    ∧ isValidNumberedHeader "2" "Figure 3 shows the architecture" 2 = false
    ∧ isValidNumberedHeader "2" "Figure placement" 2 = false
    ∧ extractLoop ["2. Figure 3 shows the architecture"]
        ⟨"Preamble/Introduction", "intro "⟩ 2
      = [⟨"Preamble/Introduction", "intro 2. Figure 3 shows the architecture "⟩] := by
  refine ⟨?_, by decide, by decide, by decide⟩
  intro num phr exp h
  by_cases hl : phr.length ≥ 30
  · unfold isValidNumberedHeader
    rw [if_pos hl]
  · unfold isValidNumberedHeader
    rw [if_neg hl]
    simp only [h, if_true]

/-- Witness for C6 at a concrete caption-like candidate. -/
theorem c6_caption_exclusion_witness :
    isValidNumberedHeader "2" "Table of runtimes" 2 = false :=
  c6_caption_exclusion.1 "2" "Table of runtimes" 2 (by decide)

/-- Unfolding equation for `romanLoop` on a cons cell. -/
theorem romanLoop_cons (c : Char) (cs : List Char) (total prev : Int) :
    romanLoop (c :: cs) total prev =
      (match romanVal c with
       | none => none
       | some v => romanLoop cs (if v < prev then total - v else total + v) v) := rfl

/-- A character outside the Roman alphabet anywhere in the sequence makes the
whole loop return `none`. -/
theorem romanLoop_invalid :
    ∀ (cs : List Char) (total prev : Int),
      (∃ c ∈ cs, romanVal c = none) → romanLoop cs total prev = none := by
  intro cs
  induction cs with
  | nil =>
    intro total prev h
    obtain ⟨c, hc, _⟩ := h
    exact absurd hc (List.not_mem_nil c)
  | cons c cs ih =>
    intro total prev h
    rw [romanLoop_cons]
    cases hv : romanVal c with
    | none => rfl
    | some v =>
      obtain ⟨d, hd, hdv⟩ := h
      rcases List.mem_cons.mp hd with rfl | hd'
      · rw [hv] at hdv; cases hdv
      · exact ih _ _ ⟨d, hd', hdv⟩

/-- C4 counterexample: on the empty token the resolver does not return
`none` — the Roman loop runs zero iterations and returns the accumulator 0
(`"".isdigit()` is false, so the empty string reaches `roman_to_int`). -/
theorem c4_counterexample :
    resolveNumeral "" = some 0 ∧ roman_to_int "" = some 0 ∧ resolveNumeral "" ≠ none :=
  ⟨by decide, by decide, by decide⟩

/-- C4 (amended): the resolver returns the decimal value directly for
all-digit tokens and otherwise decodes the uppercased token as a Roman
numeral from the rightmost character leftwards, subtracting a value strictly
smaller than its right neighbour's and adding otherwise; any character
outside I,V,X,L,C,D,M makes it return `none`; the empty token returns 0
(not `none`). -/
theorem c4_numeral_resolver :
    (∀ s, pyIsDigitStr s = true →
       resolveNumeral s = some ((digitsToNat s.data : Nat) : Int))
    ∧ (∀ s, pyIsDigitStr s = false → resolveNumeral s = roman_to_int s)
    ∧ (∀ s, roman_to_int s = romanLoop ((pyUpper s).data.reverse) 0 0)
    ∧ (∀ c cs total prev v, romanVal c = some v →
        romanLoop (c :: cs) total prev
          = romanLoop cs (if v < prev then total - v else total + v) v)
    ∧ (∀ c cs total prev, romanVal c = none → romanLoop (c :: cs) total prev = none)
    ∧ (∀ s, (∃ c ∈ (pyUpper s).data, romanVal c = none) → roman_to_int s = none)
    ∧ roman_to_int "" = some 0 := by
  refine ⟨?_, ?_, fun s => rfl, ?_, ?_, ?_, by decide⟩
  · intro s h; simp [resolveNumeral, h]
  · intro s h; simp [resolveNumeral, h]
  · intro c cs total prev v h; rw [romanLoop_cons, h]
  · intro c cs total prev h; rw [romanLoop_cons, h]
  · intro s h
    obtain ⟨c, hc, hv⟩ := h
    exact romanLoop_invalid _ 0 0 ⟨c, List.mem_reverse.mpr hc, hv⟩

/-- Witness for C4 (amended) at concrete tokens of each kind. -/
theorem c4_numeral_resolver_witness :
    resolveNumeral "12" = some ((digitsToNat "12".data : Nat) : Int)
    ∧ resolveNumeral "iv" = roman_to_int "iv"
    ∧ roman_to_int "A7" = none
    ∧ romanLoop ['I'] 10 10 = romanLoop [] (if (1 : Int) < 10 then 10 - 1 else 10 + 1) 1
    ∧ romanLoop ['Z'] 0 0 = none :=
  ⟨c4_numeral_resolver.1 "12" (by decide),
   c4_numeral_resolver.2.1 "iv" (by decide),
   c4_numeral_resolver.2.2.2.2.2.1 "A7" ⟨'A', by decide, by decide⟩,
   c4_numeral_resolver.2.2.2.1 'I' [] 10 10 1 (by decide),
   c4_numeral_resolver.2.2.2.2.1 'Z' [] 0 0 (by decide)⟩

/-- C9 counterexample: in the dict-based `parse_pdf_text`, a header title
that reappears resets its entry in place — the earlier occurrence's content
(`"alpha"`) is lost and only one record survives, so duplicate detections are
not preserved distinctly there. -/
theorem c9_counterexample :
    parse_pdf_text ["1. Intro", "alpha", "1. Intro", "beta"] = [("1. Intro", "beta")]
    ∧ (parse_pdf_text ["1. Intro", "alpha", "1. Intro", "beta"]).length = 1 :=
  ⟨by decide, by decide⟩

/-- C9 (amended): in the list-based assembler `extract_sections_visual`, each
detected occurrence of the same title yields its own distinct section record
in encounter order, each retaining its own content (the mapped-header step
appends the closed section and opens a fresh one, never merging); the
dict-based `parse_pdf_text` instead overwrites the earlier occurrence (see
the counterexample). -/
theorem c9_duplicate_titles :
    extractSectionsLines ["RELATED WORK", "alpha", "Literature Review", "beta"]
      = [⟨"RELATED WORK", "alpha "⟩, ⟨"RELATED WORK", "beta "⟩]
    ∧ (∀ line rest cur exp t, singleHeader line exp = none →
        (∀ next rest2, rest = next :: rest2 → splitHeader line next exp = none) →
        getMappedTitle line = some t →
        extractLoop (line :: rest) cur exp = emitIf cur ++ extractLoop rest ⟨t, ""⟩ exp) :=
  ⟨by decide,
   fun line rest cur exp t h1 h2 h3 => extractLoop_mapped_step line rest cur exp t h1 h2 h3⟩

/-- Witness for C9 (amended): a second mapped occurrence of `"RELATED WORK"`
closes and appends the first record instead of merging into it. -/
theorem c9_duplicate_titles_witness :
    extractLoop ["Background", "text"] ⟨"RELATED WORK", "alpha "⟩ 1
      = emitIf ⟨"RELATED WORK", "alpha "⟩ ++ extractLoop ["text"] ⟨"RELATED WORK", ""⟩ 1 :=
  c9_duplicate_titles.2 "Background" ["text"] ⟨"RELATED WORK", "alpha "⟩ 1 "RELATED WORK"
    (by decide) (by intro next rest2 hE; cases hE; decide) (by decide)

/-- C10: the extractor never propagates a failure of the PDF-reading step:
when the upstream extraction fails (modelled as the `Except.error` input,
matching the function-wide `try/except`), the result is exactly the
one-element list whose record is titled `"Error Reading PDF"` and whose
content begins with `"Could not extract text:"`; on successful extraction it
runs the pure assembler, which is total. -/
theorem c10_error_fallback :
    (∀ e, extract_sections_visual (.error e)
        = [⟨"Error Reading PDF", "Could not extract text: " ++ e⟩])
    ∧ (∀ e, strStartsWith ("Could not extract text: " ++ e) "Could not extract text:" = true)
    ∧ (∀ raw, extract_sections_visual (.ok raw) = extractSectionsLines (preprocessLines raw)) := by
  refine ⟨fun e => rfl, ?_, fun raw => rfl⟩
  intro e
  unfold strStartsWith
  rw [strData_append]
  have h : ("Could not extract text: ").data = ("Could not extract text:").data ++ [' '] := by
    decide
  rw [h, List.append_assoc]
  exact listStartsWith_append _ _

/-! ## The no-header degenerate case -/

/-- Content accumulated by the assembler when every line is ordinary
content: each line followed by the single space the loop appends. -/
def contentJoin : List String → String
  | [] => ""
  | l :: ls => l ++ " " ++ contentJoin ls

theorem pyStripL_eq_nil_iff (cs : List Char) :
    pyStripL cs = [] ↔ ∀ c ∈ cs, isPySpace c = true := by
  unfold pyStripL
  constructor
  · intro h c hc
    rw [List.reverse_eq_nil_iff, List.dropWhile_eq_nil_iff] at h
    have hsplit : c ∈ cs.takeWhile isPySpace ∨ c ∈ cs.dropWhile isPySpace := by
      have hmem : c ∈ cs.takeWhile isPySpace ++ cs.dropWhile isPySpace := by
        rw [List.takeWhile_append_dropWhile]
        exact hc
      exact List.mem_append.mp hmem
    rcases hsplit with h1 | h2
    · exact List.mem_takeWhile_imp h1
    · exact h c (List.mem_reverse.mpr h2)
  · intro h
    have h1 : cs.dropWhile isPySpace = [] :=
      List.dropWhile_eq_nil_iff.mpr (fun c hc => h c hc)
    rw [h1]
    rfl

theorem pyStrip_eq_empty_iff (s : String) :
    pyStrip s = "" ↔ ∀ c ∈ s.data, isPySpace c = true := by
  constructor
  · intro h
    have hd : pyStripL s.data = [] := congrArg String.data h
    exact (pyStripL_eq_nil_iff s.data).mp hd
  · intro h
    show String.mk (pyStripL s.data) = ""
    rw [(pyStripL_eq_nil_iff s.data).mpr h]

theorem mem_data_contentJoin {l : String} {lines : List String} (hl : l ∈ lines) :
    ∀ c ∈ l.data, c ∈ (contentJoin lines).data := by
  induction lines with
  | nil => cases hl
  | cons x xs ih =>
    intro c hc
    rw [show contentJoin (x :: xs) = x ++ " " ++ contentJoin xs from rfl,
      strData_append, strData_append]
    rcases List.mem_cons.mp hl with rfl | h'
    · exact List.mem_append.mpr (Or.inl (List.mem_append.mpr (Or.inl hc)))
    · exact List.mem_append.mpr (Or.inr (ih h' c hc))

/-- When no line of the input matches any header-detection path, the
assembler loop only accumulates content: it returns the current section
extended with every line (each followed by one space), emitted iff that
content is non-blank. -/
theorem extractLoop_no_headers :
    ∀ (lines : List String) (t c : String),
      (∀ l ∈ lines, singleHeader l 1 = none) →
      List.Chain' (fun a b => splitHeader a b 1 = none) lines →
      (∀ l ∈ lines, getMappedTitle l = none) →
      extractLoop lines ⟨t, c⟩ 1 = emitIf ⟨t, c ++ contentJoin lines⟩ := by
  intro lines
  induction lines with
  | nil =>
    intro t c _ _ _
    show emitIf ⟨t, c⟩ = emitIf ⟨t, c ++ contentJoin []⟩
    rw [show contentJoin [] = "" from rfl, strAppend_empty]
  | cons l rest ih =>
    intro t c H1 H2 H3
    have h1 : singleHeader l 1 = none := H1 l (List.mem_cons_self l rest)
    have h2 : ∀ next rest2, rest = next :: rest2 → splitHeader l next 1 = none := by
      intro next rest2 hE
      subst hE
      exact (List.chain'_cons.mp H2).1
    have h3 : getMappedTitle l = none := H3 l (List.mem_cons_self l rest)
    rw [extractLoop_content_step l rest ⟨t, c⟩ 1 h1 h2 h3]
    show extractLoop rest ⟨t, c ++ l ++ " "⟩ 1 = _
    rw [ih t (c ++ l ++ " ")
      (fun x hx => H1 x (List.mem_cons_of_mem l hx))
      H2.tail
      (fun x hx => H3 x (List.mem_cons_of_mem l hx))]
    have heq : c ++ l ++ " " ++ contentJoin rest = c ++ contentJoin (l :: rest) := by
      apply String.ext
      rw [show contentJoin (l :: rest) = l ++ " " ++ contentJoin rest from rfl]
      simp [strData_append, List.append_assoc]
    rw [heq]

/-- C7 counterexample: on the empty line sequence the assembler returns the
empty section list — zero sections, not one `"Preamble/Introduction"`
record (the empty preamble content is dropped by the final non-blank
check). -/
theorem c7_counterexample :
    extractSectionsLines [] = [] ∧ (extractSectionsLines []).length ≠ 1 :=
  ⟨by decide, by decide⟩

/-- C7 (amended): for every line sequence in which no line matches any
header-detection path (single-line numbered, split-line pair, or mapped
title) and at least one line has a non-whitespace character, the assembler
returns exactly one section, titled `"Preamble/Introduction"`, whose content
is the space-joined concatenation of every input line; for inputs whose
lines are all blank — in particular the empty sequence — it returns the
empty list instead. -/
theorem c7_no_header_degenerate (lines : List String)
    (H1 : ∀ l ∈ lines, singleHeader l 1 = none)
    (H2 : List.Chain' (fun a b => splitHeader a b 1 = none) lines)
    (H3 : ∀ l ∈ lines, getMappedTitle l = none)
    (H4 : ∃ l ∈ lines, pyStrip l ≠ "") :
    extractSectionsLines lines = [⟨"Preamble/Introduction", contentJoin lines⟩] := by
  show extractLoop lines ⟨"Preamble/Introduction", ""⟩ 1 = _
  rw [extractLoop_no_headers lines "Preamble/Introduction" "" H1 H2 H3]
  have hemp : "" ++ contentJoin lines = contentJoin lines := by
    apply String.ext
    rw [strData_append]
    rfl
  have hne : pyStrip ("" ++ contentJoin lines) ≠ "" := by
    rw [hemp]
    intro hcontra
    obtain ⟨l, hl, hlne⟩ := H4
    have hall := (pyStrip_eq_empty_iff _).mp hcontra
    exact hlne ((pyStrip_eq_empty_iff _).mpr
      (fun c hc => hall c (mem_data_contentJoin hl c hc)))
  unfold emitIf
  rw [if_neg (by simpa using hne), hemp]

/-- Witness for C7 (amended) on a concrete header-free input. -/
theorem c7_no_header_degenerate_witness :
    extractSectionsLines ["hello there", "second line"]
      = [⟨"Preamble/Introduction", contentJoin ["hello there", "second line"]⟩] :=
  c7_no_header_degenerate ["hello there", "second line"]
    (by decide)
    (by
      rw [List.chain'_cons]
      exact ⟨by decide, List.chain'_singleton _⟩)
    (by decide) ⟨"hello there", by decide, by decide⟩

/-! ## Review-skip filter -/

/-- `takeWhile` stops exactly at the first failing character. -/
theorem takeWhile_append_not (p : Char → Bool) (w : List Char) (c : Char)
    (rest : List Char) (hword : ∀ x ∈ w, p x = true) (hc : p c = false) :
    (w ++ c :: rest).takeWhile p = w := by
  induction w with
  | nil => simp [List.takeWhile_cons, hc]
  | cons a as ih =>
    simp only [List.cons_append, List.takeWhile_cons,
      hword a (List.mem_cons_self a as)]
    rw [ih (fun x hx => hword x (List.mem_cons_of_mem a hx))]
    simp

/-- Modelled from the spec: the claim's review-skip normalization — uppercase
the title, strip a leading numeral-plus-dot-plus-space prefix, trim — missing
from the code, which strips a word-character run instead (see
`stripWordDotHead`). -/
def specNormalizeTitle (s : String) : String :=
  let up := pyUpper s
  let run := up.data.takeWhile Char.isDigit
  if run.isEmpty then pyStrip up
  else
    match up.data.drop run.length with
    | '.' :: ' ' :: r => pyStrip ⟨r⟩
    | _ => pyStrip up

/-- Modelled from the spec: the claim's "ineligible exactly when" test over
its own normalization. -/
def specSkipsReview (s : String) : Bool :=
  SKIP_REVIEW_SECTIONS.contains (specNormalizeTitle s)
    || SKIP_REVIEW_SECTIONS.contains (pyUpper s)

/-- C8 counterexample: the code's normalization strips ANY leading
word-character run before a period (the regex `^[\d\w]+\.\s*`), not only a
numeral, and the whitespace after the period is optional.  So
`"A. ABSTRACT"` and `"3.ABSTRACT"` are declared ineligible by the code while
the claim's characterization declares them eligible. -/
theorem c8_counterexample :
    generateSectionReviewSkips "A. ABSTRACT" = true
    ∧ specSkipsReview "A. ABSTRACT" = false
    ∧ generateSectionReviewSkips "3.ABSTRACT" = true
    ∧ specSkipsReview "3.ABSTRACT" = false :=
  ⟨by decide, by decide, by decide, by decide⟩

/-- C8 (amended): the filter uppercases and trims the section title and then
strips a leading non-empty run of word characters (letters, digits or
underscore — not only numerals) followed by a period and any following
whitespace (the whitespace being optional); the section is ineligible for
review exactly when this normalized title or the raw uppercased title is one
of the `SKIP_REVIEW_SECTIONS`.  `"3. ABSTRACT"` and `"ABSTRACT"` are
ineligible while `"4. METHODOLOGY"` is eligible, and on these three examples
the spec's numeral-only reading agrees with the code. -/
theorem c8_review_skip_filter :
    (∀ (up : String) (w rest : List Char), up.data = w ++ '.' :: rest → w ≠ [] →
       (∀ c ∈ w, pyIsWord c = true) →
       stripWordDotHead up = ⟨rest.dropWhile isPySpace⟩)
    ∧ (∀ s, generateSectionReviewSkips s = true ↔
        (stripWordDotHead (pyStrip (pyUpper s)) ∈ SKIP_REVIEW_SECTIONS
          ∨ pyUpper s ∈ SKIP_REVIEW_SECTIONS))
    ∧ generateSectionReviewSkips "3. ABSTRACT" = true
    ∧ generateSectionReviewSkips "ABSTRACT" = true
    ∧ generateSectionReviewSkips "4. METHODOLOGY" = false
    ∧ specSkipsReview "3. ABSTRACT" = true
    ∧ specSkipsReview "ABSTRACT" = true
    ∧ specSkipsReview "4. METHODOLOGY" = false := by
  refine ⟨?_, ?_, by decide, by decide, by decide, by decide, by decide, by decide⟩
  · intro up w rest hsplit hw hword
    simp only [stripWordDotHead, hsplit]
    rw [takeWhile_append_not pyIsWord w '.' rest hword (by decide)]
    rw [if_neg (by simpa [List.isEmpty_iff] using hw)]
    rw [List.drop_left]
    rfl
  · intro s
    unfold generateSectionReviewSkips
    simp [List.contains, List.elem_iff]

/-- Witness for C8 (amended) at the claim's own example title. -/
theorem c8_review_skip_filter_witness :
    stripWordDotHead "3. ABSTRACT" = ⟨(" ABSTRACT" : String).data.dropWhile isPySpace⟩ :=
  c8_review_skip_filter.1 "3. ABSTRACT" ['3'] (" ABSTRACT" : String).data
    (by decide) (by decide) (by decide)
